import Mathlib

/-!
Verification development for the BTST stock scanner (`app.py`).

The scanner fetches, for each symbol, a trailing window of daily OHLCV bars,
computes momentum/volume metrics and technical indicators for one analysis
date, collects the per-symbol records into a table, and filters that table
with a fixed five-clause criterion gated by the index's percent change.

Shallow embedding conventions:
* prices and volumes are rationals (`ℚ`); pandas NaN values are `Option ℚ`
  with `none` for NaN (a comparison against NaN yields `False` in pandas,
  mirrored explicitly where it occurs);
* a daily bar series (`yf.download` result) is a list of (date, Bar) pairs
  ordered by date, dates as integers;
* Python exceptions are `Except Err` values; the analyzer's blanket
  `except Exception` is the match that maps `.error` to the no-data outcome;
* the external indicator library (`pandas_ta`) is kept abstract in its
  numeric outputs (an `IndicatorOracle` parameter) because no claim depends
  on the indicator values; its documented output column names and
  minimum-length behaviour, which the code does depend on, are concrete.
-/

namespace BTST

/-- One trading day's OHLCV data for one instrument. -/
structure Bar where
  open_ : ℚ
  high : ℚ
  low : ℚ
  close : ℚ
  volume : ℚ
deriving Repr, DecidableEq

/-- A date-keyed daily bar series, ordered by date (the `yf.download` frame). -/
abbrev PriceSeries := List (ℤ × Bar)

/-- The Python exceptions that the analyzer can raise and catch. -/
inductive Err where
  | indexError
  | keyError (k : String)
  | attrError (what : String)
  | fetchError (msg : String)
deriving Repr, DecidableEq

/-- `str(e)` for the modelled exceptions. -/
def errMsg : Err → String
  | .indexError => "single positional indexer is out-of-bounds"
  | .keyError k => "KeyError: " ++ k
  | .attrError w => "AttributeError: " ++ w
  | .fetchError m => m

/-- `data.loc[analysis_date]` guarded by `analysis_date in data.index`:
the bar at the exact date, if any (line 79 and line 82 of `app.py`). -/
def locDate (s : PriceSeries) (d : ℤ) : Option Bar :=
  (s.find? (fun p => p.1 == d)).map (fun p => p.2)

/-- `.iloc[i]` positional indexing, with Python's negative-index convention
and an `IndexError` out of bounds. -/
def ilocE {α : Type} (xs : List α) (i : ℤ) : Except Err α :=
  let j : ℤ := if i < 0 then (xs.length : ℤ) + i else i
  if 0 ≤ j then
    match xs[j.toNat]? with
    | some a => .ok a
    | none => .error .indexError
  else .error .indexError

/-- Line 83: `data[data.index < analysis_date].iloc[-1] if data.index[0] <
analysis_date else None`.  The empty-series case would raise on
`data.index[0]`; the analyzer only reaches this line with a nonempty series. -/
def prevDayE (s : PriceSeries) (d : ℤ) : Except Err (Option Bar) :=
  match s with
  | [] => .error .indexError
  | p :: t =>
    if p.1 < d then
      match ((p :: t).filter (fun q => decide (q.1 < d))).getLast? with
      | some q => .ok (some q.2)
      | none => .error .indexError
    else .ok none

/-- Line 86: `((Close - Open) / Open) * 100` for the analysis-date bar. -/
def pct_change (b : Bar) : ℚ :=
  ((b.close - b.open_) / b.open_) * 100

/-- Line 87: `((Close - Low) / (High - Low)) * 100 if High != Low else 0`. -/
def pct_close_near_high (b : Bar) : ℚ :=
  if b.high ≠ b.low then ((b.close - b.low) / (b.high - b.low)) * 100 else 0

/-- Line 88: `today['Close'] > prev_day['High'] if prev_day is not None
else False`. -/
def close_above_prev_high (today : Bar) : Option Bar → Bool
  | some p => decide (p.high < today.close)
  | none => false

/-- Line 95: `((High - Low) / Open) * 100`. -/
def intraday_range_pct (b : Bar) : ℚ :=
  ((b.high - b.low) / b.open_) * 100

/-- `Series.rolling(window=10).mean()`: entry `i` is the mean of the 10
values ending at position `i`, NaN (`none`) for the first 9 positions. -/
def rollingMean10 (xs : List ℚ) : List (Option ℚ) :=
  (List.range xs.length).map (fun i =>
    if 9 ≤ i then some ((((xs.drop (i - 9)).take 10).sum) / 10) else none)

/-- Line 91: `data['Volume'].rolling(window=10).mean().iloc[-2]` — the
10-day average volume evaluated one bar before the last bar. -/
def avg_volume_10d (s : PriceSeries) : Except Err (Option ℚ) :=
  ilocE (rollingMean10 (s.map (fun p => p.2.volume))) (-2)

/-- Line 92: `today['Volume'] / avg_volume if avg_volume > 0 else 0`.
A NaN average compares as not greater than zero, giving 0. -/
def volume_spike (v : ℚ) : Option ℚ → ℚ
  | some a => if 0 < a then v / a else 0
  | none => 0

/-- The numeric outputs of the external `pandas_ta` indicator library,
kept abstract (no claim depends on the indicator values, only on the
library's output column names and minimum-length behaviour, which are
concrete below).  Each function takes the close-price series and returns
the value(s) at the last row, `none` for NaN. -/
structure IndicatorOracle where
  rsi : List ℚ → Option ℚ
  macd : List ℚ → Option ℚ × Option ℚ × Option ℚ
  bb : List ℚ → Option ℚ × Option ℚ × Option ℚ

/-- Line 99: `ta.rsi(data['Close'], length=14).iloc[-1]`.  With fewer than
14 closes the library returns `None` and `.iloc[-1]` raises. -/
def rsiLastE (ind : IndicatorOracle) (closes : List ℚ) : Except Err (Option ℚ) :=
  if closes.length < 14 then .error (.attrError "rsi")
  else .ok (ind.rsi closes)

/-- Line 102: `ta.macd(data['Close']).iloc[-1]`.  The library's output
columns for the default (12, 26, 9) parameters are `MACD_12_26_9`,
`MACDh_12_26_9` and `MACDs_12_26_9`; with fewer than 26 closes it returns
`None` and `.iloc[-1]` raises. -/
def macdLastE (ind : IndicatorOracle) (closes : List ℚ) :
    Except Err (List (String × Option ℚ)) :=
  if closes.length < 26 then .error (.attrError "macd")
  else
    .ok [("MACD_12_26_9", (ind.macd closes).1),
         ("MACDh_12_26_9", (ind.macd closes).2.1),
         ("MACDs_12_26_9", (ind.macd closes).2.2)]

/-- Line 105: `ta.bbands(data['Close'], length=20).iloc[-1]`.  The library's
output columns for length 20 and the default 2.0 standard deviations
include `BBL_20_2.0`, `BBM_20_2.0` and `BBU_20_2.0`; with fewer than 20
closes it returns `None` and `.iloc[-1]` raises. -/
def bbLastE (ind : IndicatorOracle) (closes : List ℚ) :
    Except Err (List (String × Option ℚ)) :=
  if closes.length < 20 then .error (.attrError "bbands")
  else
    .ok [("BBL_20_2.0", (ind.bb closes).1),
         ("BBM_20_2.0", (ind.bb closes).2.1),
         ("BBU_20_2.0", (ind.bb closes).2.2)]

/-- Label lookup `row[k]` on a pandas row: `KeyError` if the label is
absent. -/
def rowGet (row : List (String × Option ℚ)) (k : String) : Except Err (Option ℚ) :=
  match row.find? (fun p => p.1 == k) with
  | some p => .ok p.2
  | none => .error (.keyError k)

/-- `today['Close'] > bb['BBU_20_2.0']` (line 126): a comparison against
NaN is `False` in pandas. -/
def gtOpt (c : ℚ) : Option ℚ → Bool
  | some x => decide (x < c)
  | none => false

/-- One output row of the scanner (the dict built at lines 107-127). -/
structure AnalysisRecord where
  symbol : String
  open_ : ℚ
  high : ℚ
  low : ℚ
  close : ℚ
  volume : ℚ
  avgVolume10d : Option ℚ
  pctChange : ℚ
  pctCloseNearHigh : ℚ
  closeAbovePrevHigh : Bool
  volumeSpike : ℚ
  intradayRangePct : ℚ
  rsi14 : Option ℚ
  macdLine : Option ℚ
  macdSignal : Option ℚ
  bbUpper : Option ℚ
  bbMiddle : Option ℚ
  bbLower : Option ℚ
  closeAboveBBUpper : Bool
deriving Repr, DecidableEq

/-- The body of `analyze_stock`'s `try` block after the download (lines
79-127): `.ok none` is the "no data" return at line 80, `.error` is a
raised exception, `.ok (some r)` is the completed record.  Statements are
sequenced exactly as in the source, including the dict's evaluation order
(MACD lookups before the Bollinger lookups). -/
def analyzeCore (ind : IndicatorOracle) (data : PriceSeries) (sym : String)
    (d : ℤ) : Except Err (Option AnalysisRecord) :=
  match locDate data d with
  | none => .ok none
  | some today => do
    let pd ← prevDayE data d
    let pc := pct_change today
    let pcnh := pct_close_near_high today
    let capnh := close_above_prev_high today pd
    let avgVol ← avg_volume_10d data
    let vs := volume_spike today.volume avgVol
    let irp := intraday_range_pct today
    let closes := data.map (fun p => p.2.close)
    let rsiVal ← rsiLastE ind closes
    let macdRow ← macdLastE ind closes
    let bbRow ← bbLastE ind closes
    let mline ← rowGet macdRow "MACD_12_26_9"
    let msig ← rowGet macdRow "MACDs_9"
    let bu ← rowGet bbRow "BBU_20_2.0"
    let bm ← rowGet bbRow "BBM_20_2.0"
    let bl ← rowGet bbRow "BBL_20_2.0"
    return some {
      symbol := sym
      open_ := today.open_
      high := today.high
      low := today.low
      close := today.close
      volume := today.volume
      avgVolume10d := avgVol
      pctChange := pc
      pctCloseNearHigh := pcnh
      closeAbovePrevHigh := capnh
      volumeSpike := vs
      intradayRangePct := irp
      rsi14 := rsiVal
      macdLine := mline
      macdSignal := msig
      bbUpper := bu
      bbMiddle := bm
      bbLower := bl
      closeAboveBBUpper := gtOpt today.close bu }

/-- The three possible per-symbol outcomes: a record, the silent "no data"
return, or a caught-and-logged exception. -/
inductive Outcome where
  | record (r : AnalysisRecord)
  | noData
  | failed (e : Err)
deriving Repr, DecidableEq

/-- The fallible part of `analyze_stock`: the download followed by the
body.  The download's result (or failure) is the `fetchRes` argument. -/
def analyzeExc (ind : IndicatorOracle) (fetchRes : Except Err PriceSeries)
    (sym : String) (d : ℤ) : Except Err (Option AnalysisRecord) :=
  fetchRes.bind (fun data => analyzeCore ind data sym d)

/-- `analyze_stock` (lines 71-130): the `try`/`except Exception` wrapper
maps any raised exception to the logged `failed` outcome and the line-80
return to `noData`; it never re-raises. -/
def analyzeStock (ind : IndicatorOracle) (fetchRes : Except Err PriceSeries)
    (sym : String) (d : ℤ) : Outcome :=
  match analyzeExc ind fetchRes sym d with
  | .ok (some r) => .record r
  | .ok none => .noData
  | .error e => .failed e

/-- The record contributed to `results` by one outcome (`if result:` at
line 139 keeps exactly the `record` outcomes). -/
def outcomeRec : Outcome → Option AnalysisRecord
  | .record r => some r
  | .noData => none
  | .failed _ => none

/-- The `st.write` log entry of line 129: symbol identity plus message,
emitted exactly on the exception path. -/
structure LogEntry where
  symbol : String
  message : String
deriving Repr, DecidableEq

/-- The log entry contributed by one outcome. -/
def outcomeLog (sym : String) : Outcome → Option LogEntry
  | .failed e => some ⟨sym, errMsg e⟩
  | _ => none

/-- The symbol loop (lines 134-140): analyze each symbol in order,
collecting the produced records and the error log entries.  Returns
(results table, log). -/
def runScan (ind : IndicatorOracle) (fetch : String → Except Err PriceSeries)
    (symbols : List String) (d : ℤ) : List AnalysisRecord × List LogEntry :=
  match symbols with
  | [] => ([], [])
  | s :: rest =>
    let o := analyzeStock ind (fetch s) s d
    let acc := runScan ind fetch rest d
    ((outcomeRec o).toList ++ acc.1, (outcomeLog s o).toList ++ acc.2)

/-- The five-clause BTST criterion of lines 147-153, with the scan-wide
index clause broadcast over the rows. -/
def btstPass (idxPct : ℚ) (r : AnalysisRecord) : Bool :=
  decide (2 ≤ r.pctChange) && decide (2 ≤ r.volumeSpike) &&
  decide (70 ≤ r.pctCloseNearHigh) && (r.closeAbovePrevHigh == true) &&
  decide (0 ≤ idxPct)

/-- Line 155: `btst_stocks = df[btst_criteria]`. -/
def btstStocks (table : List AnalysisRecord) (idxPct : ℚ) : List AnalysisRecord :=
  table.filter (btstPass idxPct)

/-- The whole-run outcome: the hard stop of lines 58-60, the empty-results
warning of line 221, or the displayed table and candidate subset. -/
inductive RunResult where
  | stopped (msg : String)
  | noResults (idxPct : ℚ)
  | done (table candidates : List AnalysisRecord) (idxPct : ℚ)
deriving Repr, DecidableEq

/-- The scan pipeline after the symbol list is loaded (lines 56-155):
require an index bar at the exact analysis date (else stop with the
warning), compute the index percent change once, run the symbol loop and
filter the table. -/
def runPipeline (ind : IndicatorOracle) (idxSeries : PriceSeries)
    (fetch : String → Except Err PriceSeries) (symbols : List String)
    (d : ℤ) : RunResult :=
  match locDate idxSeries d with
  | none =>
    .stopped ("No index data available for " ++ toString d ++
      ". Please select a valid trading day.")
  | some idxBar =>
    let idxPct := ((idxBar.close - idxBar.open_) / idxBar.open_) * 100
    let table := (runScan ind fetch symbols d).1
    if table.isEmpty then .noResults idxPct
    else .done table (btstStocks table idxPct) idxPct

/-- The index percent change a run computed, if it got past the hard stop. -/
def idxPctOf : RunResult → Option ℚ
  | .stopped _ => none
  | .noResults p => some p
  | .done _ _ p => some p

/-- The per-symbol table a run produced, if any. -/
def tableOf : RunResult → Option (List AnalysisRecord)
  | .stopped _ => none
  | .noResults _ => none
  | .done t _ _ => some t

/-- A trivial indicator oracle (every indicator value NaN), used to
evaluate the pipeline on concrete inputs. -/
def ind0 : IndicatorOracle :=
  ⟨fun _ => none, fun _ => (none, none, none), fun _ => (none, none, none)⟩

/-- A degenerate constant bar used in concrete evaluations. -/
def unitBar : Bar := ⟨1, 1, 1, 1, 1⟩

/-- Forty trading days of the constant bar, dates 1 through 40: ample
history for every indicator warm-up period used by the scanner. -/
def series40 : PriceSeries := (List.range 40).map (fun i => ((i : ℤ) + 1, unitBar))

/-- The scenario bar of the spec: Open 100, High 110, Low 98, Close 108,
Volume 500000. -/
def barX : Bar := ⟨100, 110, 98, 108, 500000⟩

/-- A prior-day bar with High 105. -/
def barPrev : Bar := ⟨100, 105, 99, 104, 200000⟩

/-- A fetch that always fails (a network error for every symbol). -/
def fetchBoom : String → Except Err PriceSeries :=
  fun _ => .error (.fetchError "boom")

/-- Ten trading days of the prior-day bar, dates 1 through 10. -/
def tenBars : PriceSeries := (List.range 10).map (fun i => ((i : ℤ) + 1, barPrev))

end BTST

namespace BTST

/-- `bind` on an `Except` error short-circuits. -/
theorem bindE_error {α β : Type} (e : Err) (f : α → Except Err β) :
    ((Except.error e : Except Err α) >>= f) = .error e := rfl

/-- `bind` on an `Except` success applies the continuation. -/
theorem bindE_ok {α β : Type} (a : α) (f : α → Except Err β) :
    ((Except.ok a : Except Err α) >>= f) = f a := rfl

/-- Claim C4: for a valid bar, `pct_close_near_high` equals
`(Close - Low) / (High - Low) * 100` and lies in `[0, 100]` whenever
`High > Low`, and is exactly `0` when `High = Low`. -/
theorem c4_pct_close_near_high (b : Bar) (_h0 : 0 ≤ b.low)
    (h1 : b.low ≤ b.close) (h2 : b.close ≤ b.high) :
    (b.low < b.high →
      pct_close_near_high b = ((b.close - b.low) / (b.high - b.low)) * 100 ∧
      0 ≤ pct_close_near_high b ∧ pct_close_near_high b ≤ 100) ∧
    (b.high = b.low → pct_close_near_high b = 0) := by
  constructor
  · intro hlt
    have hne : b.high ≠ b.low := ne_of_gt hlt
    have heq : pct_close_near_high b = ((b.close - b.low) / (b.high - b.low)) * 100 := by
      simp [pct_close_near_high, hne]
    refine ⟨heq, ?_, ?_⟩
    · rw [heq]
      have hnum : (0 : ℚ) ≤ b.close - b.low := by linarith
      have hden : (0 : ℚ) ≤ b.high - b.low := by linarith
      have := div_nonneg hnum hden
      linarith
    · rw [heq]
      have hden : (0 : ℚ) < b.high - b.low := by linarith
      have hfrac : (b.close - b.low) / (b.high - b.low) ≤ 1 :=
        (div_le_one hden).mpr (by linarith)
      linarith
  · intro he
    simp [pct_close_near_high, he]

/-- Witness for C4 at the spec's scenario bar. -/
theorem c4_pct_close_near_high_witness :
    pct_close_near_high barX = ((108 - 98) / (110 - 98)) * 100 ∧
    0 ≤ pct_close_near_high barX ∧ pct_close_near_high barX ≤ 100 :=
  (c4_pct_close_near_high barX (by norm_num [barX]) (by norm_num [barX])
    (by norm_num [barX])).1 (by norm_num [barX])

/-- Claim C5: `volume_spike` is `Volume / avg` when the average is
positive, and exactly `0` when the average is not positive (including the
NaN average of an insufficient window). -/
theorem c5_volume_spike (v a : ℚ) :
    (0 < a → volume_spike v (some a) = v / a) ∧
    (a ≤ 0 → volume_spike v (some a) = 0) ∧
    volume_spike v none = 0 := by
  refine ⟨fun h => ?_, fun h => ?_, rfl⟩
  · simp [volume_spike, h]
  · simp [volume_spike, not_lt.mpr h]

/-- Witness for C5 at concrete volumes. -/
theorem c5_volume_spike_witness :
    volume_spike 500000 (some 200000) = 500000 / 200000 ∧
    volume_spike 500000 (some 0) = 0 ∧
    volume_spike 500000 none = 0 :=
  ⟨(c5_volume_spike 500000 200000).1 (by norm_num),
   (c5_volume_spike 500000 0).2.1 le_rfl,
   (c5_volume_spike 500000 0).2.2⟩

/-- Claim C1: a record is a candidate iff it is in the table and all five
clauses hold with the literal thresholds; the candidate subset is a subset
of the table; the scan-wide index clause is uniform — with a non-negative
index change the filter reduces to the four per-record clauses, with a
negative one the candidate subset is empty. -/
theorem c1_btst_filter (table : List AnalysisRecord) (idxPct : ℚ)
    (r : AnalysisRecord) :
    (r ∈ btstStocks table idxPct ↔
      r ∈ table ∧ 2 ≤ r.pctChange ∧ 2 ≤ r.volumeSpike ∧
        70 ≤ r.pctCloseNearHigh ∧ r.closeAbovePrevHigh = true ∧ 0 ≤ idxPct) ∧
    (∀ x ∈ btstStocks table idxPct, x ∈ table) ∧
    (0 ≤ idxPct → btstStocks table idxPct =
      table.filter (fun x => decide (2 ≤ x.pctChange) &&
        decide (2 ≤ x.volumeSpike) && decide (70 ≤ x.pctCloseNearHigh) &&
        x.closeAbovePrevHigh)) ∧
    (idxPct < 0 → btstStocks table idxPct = []) := by
  refine ⟨?_, ?_, ?_, ?_⟩
  · simp [btstStocks, btstPass, List.mem_filter, and_assoc]
  · exact fun x hx => (List.mem_filter.mp hx).1
  · intro h
    apply List.filter_congr
    intro x _
    simp [btstPass, h]
  · intro h
    simp only [btstStocks, List.filter_eq_nil_iff]
    intro x _
    simp [btstPass, not_le.mpr h]

/-- Witness for C1: a passing record is in the candidate subset of a scan
with a positive index change, and a negative index change empties the
candidate subset. -/
theorem c1_btst_filter_witness :
    (let r : AnalysisRecord :=
      { symbol := "X", open_ := 100, high := 110, low := 98, close := 108,
        volume := 500000, avgVolume10d := some 200000, pctChange := 8,
        pctCloseNearHigh := 250 / 3, closeAbovePrevHigh := true,
        volumeSpike := 5 / 2, intradayRangePct := 12, rsi14 := none,
        macdLine := none, macdSignal := none, bbUpper := none,
        bbMiddle := none, bbLower := none, closeAboveBBUpper := false }
     r ∈ btstStocks [r] (1 / 2) ∧ btstStocks [r] (-(3 / 10)) = []) := by
  intro r
  exact ⟨(c1_btst_filter [r] (1 / 2) r).1.mpr
      ⟨by simp, by norm_num, by norm_num, by norm_num, rfl, by norm_num⟩,
    (c1_btst_filter [r] (-(3 / 10)) r).2.2.2 (by norm_num)⟩

/-- The pandas_ta MACD row has no `MACDs_9` column: the signal column is
named `MACDs_12_26_9`, so the line-122 lookup raises a `KeyError`. -/
theorem rowGet_macd_signal_key (v1 v2 v3 : Option ℚ) :
    rowGet [("MACD_12_26_9", v1), ("MACDh_12_26_9", v2),
      ("MACDs_12_26_9", v3)] "MACDs_9" = .error (.keyError "MACDs_9") := by
  simp [rowGet, List.find?]

/-- The line-121 lookup of the MACD line column succeeds. -/
theorem rowGet_macd_line_key (v1 v2 v3 : Option ℚ) :
    rowGet [("MACD_12_26_9", v1), ("MACDh_12_26_9", v2),
      ("MACDs_12_26_9", v3)] "MACD_12_26_9" = .ok v1 := by
  simp [rowGet, List.find?]

/-- The analyzer body never completes a record: every run that reaches the
dict construction fails at the `MACDs_9` lookup, and every other run fails
earlier or returns the no-data sentinel. -/
theorem analyzeCore_ne_ok_some (ind : IndicatorOracle) (data : PriceSeries)
    (sym : String) (d : ℤ) (r : AnalysisRecord) :
    analyzeCore ind data sym d ≠ .ok (some r) := by
  intro h
  unfold analyzeCore at h
  cases hl : locDate data d with
  | none => rw [hl] at h; exact Option.noConfusion (Except.ok.inj h)
  | some today =>
    simp only [hl] at h
    cases hp : prevDayE data d with
    | error e => simp only [hp, bindE_error] at h; exact Except.noConfusion h
    | ok pd =>
      simp only [hp, bindE_ok] at h
      cases ha : avg_volume_10d data with
      | error e => simp only [ha, bindE_error] at h; exact Except.noConfusion h
      | ok avgVol =>
        simp only [ha, bindE_ok] at h
        cases hr : rsiLastE ind (data.map (fun p => p.2.close)) with
        | error e => simp only [hr, bindE_error] at h; exact Except.noConfusion h
        | ok rsiVal =>
          simp only [hr, bindE_ok] at h
          cases hm : macdLastE ind (data.map (fun p => p.2.close)) with
          | error e => simp only [hm, bindE_error] at h; exact Except.noConfusion h
          | ok macdRow =>
            have hrow : macdRow =
                [("MACD_12_26_9", (ind.macd (data.map (fun p => p.2.close))).1),
                 ("MACDh_12_26_9", (ind.macd (data.map (fun p => p.2.close))).2.1),
                 ("MACDs_12_26_9", (ind.macd (data.map (fun p => p.2.close))).2.2)] := by
              unfold macdLastE at hm
              split at hm
              · exact Except.noConfusion hm
              · exact (Except.ok.inj hm).symm
            subst hrow
            simp only [hm, bindE_ok] at h
            cases hb : bbLastE ind (data.map (fun p => p.2.close)) with
            | error e => simp only [hb, bindE_error] at h; exact Except.noConfusion h
            | ok bbRow =>
              simp only [hb, bindE_ok, rowGet_macd_line_key,
                rowGet_macd_signal_key, bindE_error] at h
              exact Except.noConfusion h

/-- A per-symbol outcome never contributes a record to the results list. -/
theorem outcomeRec_analyzeStock (ind : IndicatorOracle)
    (fetchRes : Except Err PriceSeries) (sym : String) (d : ℤ) :
    outcomeRec (analyzeStock ind fetchRes sym d) = none := by
  unfold analyzeStock
  cases hfr : analyzeExc ind fetchRes sym d with
  | error e => rfl
  | ok o =>
    cases o with
    | none => rfl
    | some r =>
      exfalso
      unfold analyzeExc at hfr
      cases fetchRes with
      | error e => exact Except.noConfusion hfr
      | ok data => exact analyzeCore_ne_ok_some ind data sym d r hfr

/-- The results table of every scan is empty (a consequence of the
`MACDs_9` lookup failure on every symbol that gets that far). -/
theorem runScan_table_nil (ind : IndicatorOracle)
    (fetch : String → Except Err PriceSeries) (symbols : List String)
    (d : ℤ) : (runScan ind fetch symbols d).1 = [] := by
  induction symbols with
  | nil => rfl
  | cons s rest ih =>
    simp [runScan, outcomeRec_analyzeStock, ih]

/-- The scan of a concatenated symbol list is the concatenation of the
scans: the loop never aborts early. -/
theorem runScan_append (ind : IndicatorOracle)
    (fetch : String → Except Err PriceSeries) (d : ℤ)
    (a b : List String) :
    runScan ind fetch (a ++ b) d =
      ((runScan ind fetch a d).1 ++ (runScan ind fetch b d).1,
       (runScan ind fetch a d).2 ++ (runScan ind fetch b d).2) := by
  induction a with
  | nil => simp [runScan]
  | cons s rest ih => simp [runScan, ih]

/-- Claim C7: a symbol whose fetched series has no bar at the exact
analysis date gets the no-data sentinel, contributes nothing to the scan
(dropping it from the symbol list changes nothing), and never appears in
the results table. -/
theorem c7_no_bar_no_row (ind : IndicatorOracle)
    (fetch : String → Except Err PriceSeries) (sym : String) (d : ℤ)
    (data : PriceSeries) (hf : fetch sym = .ok data)
    (hnd : ∀ p ∈ data, p.1 ≠ d) :
    analyzeStock ind (fetch sym) sym d = .noData ∧
    (∀ rest, runScan ind fetch (sym :: rest) d = runScan ind fetch rest d) ∧
    (∀ symbols r, r ∈ (runScan ind fetch symbols d).1 → r.symbol ≠ sym) := by
  have hloc : locDate data d = none := by
    unfold locDate
    rw [List.find?_eq_none.mpr]
    · rfl
    · intro p hp
      simpa using hnd p hp
  have hstock : analyzeStock ind (fetch sym) sym d = .noData := by
    rw [hf]
    unfold analyzeStock analyzeExc
    simp only [Except.bind]
    unfold analyzeCore
    rw [hloc]
  refine ⟨hstock, ?_, ?_⟩
  · intro rest
    simp [runScan, hstock, outcomeRec, outcomeLog]
  · intro symbols r hr
    rw [runScan_table_nil] at hr
    exact absurd hr (List.not_mem_nil r)

/-- Witness for C7: a series whose only bar is dated before the analysis
date yields the no-data outcome and an unchanged scan. -/
theorem c7_no_bar_no_row_witness :
    analyzeStock ind0 ((fun _ => (.ok [((1 : ℤ), unitBar)] :
        Except Err PriceSeries)) "Y") "Y" 2 = .noData ∧
    runScan ind0 (fun _ => .ok [((1 : ℤ), unitBar)]) ["Y"] 2 =
      runScan ind0 (fun _ => .ok [((1 : ℤ), unitBar)]) [] 2 :=
  ⟨(c7_no_bar_no_row ind0 (fun _ => .ok [((1 : ℤ), unitBar)]) "Y" 2
      [((1 : ℤ), unitBar)] rfl (by decide)).1,
   (c7_no_bar_no_row ind0 (fun _ => .ok [((1 : ℤ), unitBar)]) "Y" 2
      [((1 : ℤ), unitBar)] rfl (by decide)).2.1 []⟩

/-- Claim C8: a symbol whose analysis raises is mapped to the same
excluded outcome as a missing bar, is logged with its identity and the
exception message, and leaves the rest of the scan untouched — the
failure never aborts the loop. -/
theorem c8_error_isolation (ind : IndicatorOracle)
    (fetch : String → Except Err PriceSeries) (d : ℤ)
    (pre post : List String) (s : String) (e : Err)
    (h : analyzeStock ind (fetch s) s d = .failed e) :
    outcomeRec (analyzeStock ind (fetch s) s d) = none ∧
    (runScan ind fetch (pre ++ s :: post) d).1 =
      (runScan ind fetch pre d).1 ++ (runScan ind fetch post d).1 ∧
    (runScan ind fetch (pre ++ s :: post) d).2 =
      (runScan ind fetch pre d).2 ++
        ⟨s, errMsg e⟩ :: (runScan ind fetch post d).2 := by
  refine ⟨by rw [h]; rfl, ?_, ?_⟩
  · rw [runScan_append]
    simp [runScan, h, outcomeRec]
  · rw [runScan_append]
    simp [runScan, h, outcomeLog]

/-- Witness for C8: a failing fetch is logged for its own symbol and the
following symbol is still scanned. -/
theorem c8_error_isolation_witness :
    outcomeRec (analyzeStock ind0 (fetchBoom "A") "A" 0) = none ∧
    (runScan ind0 fetchBoom (["A"] ++ "B" :: []) 0).2 =
      (runScan ind0 fetchBoom ["A"] 0).2 ++
        ⟨"B", errMsg (.fetchError "boom")⟩ :: (runScan ind0 fetchBoom [] 0).2 :=
  ⟨(c8_error_isolation ind0 fetchBoom 0 [] [] "A" (.fetchError "boom") rfl).1,
   (c8_error_isolation ind0 fetchBoom 0 ["A"] [] "B" (.fetchError "boom")
      rfl).2.2⟩

/-- Entry `k` of the rolling 10-mean: NaN for the first 9 positions, then
the mean of the window of 10 values ending at `k`. -/
theorem rollingMean10_getElem (xs : List ℚ) (k : ℕ) (hk : k < xs.length) :
    (rollingMean10 xs)[k]? =
      some (if 9 ≤ k then some ((((xs.drop (k - 9)).take 10).sum) / 10)
        else none) := by
  unfold rollingMean10
  rw [List.getElem?_map]
  have h1 : (List.range xs.length)[k]? = some k := by
    rw [List.getElem?_eq_getElem (by simpa using hk)]
    simp
  rw [h1]
  rfl

/-- `.iloc` at a negative offset that lands on position `k`. -/
theorem ilocE_neg_eq {α : Type} (xs : List α) (i : ℤ) (k : ℕ)
    (hi : i < 0) (hik : (xs.length : ℤ) + i = k) :
    ilocE xs i = (match xs[k]? with
      | some a => Except.ok a
      | none => Except.error Err.indexError) := by
  unfold ilocE
  simp only [if_pos hi, hik, Int.toNat_natCast, if_pos (Int.natCast_nonneg k)]

/-- The rolling 10-mean of `F ++ (M ++ [v])` read at position `-2` is the
mean of `M` whenever `M` has exactly 10 entries: the last value `v` is
excluded from the window. -/
theorem rollingMean10_iloc_neg2 (F M : List ℚ) (v : ℚ) (hM : M.length = 10) :
    ilocE (rollingMean10 (F ++ (M ++ [v]))) (-2) = .ok (some (M.sum / 10)) := by
  have hxs : (F ++ (M ++ [v])).length = F.length + 11 := by
    simp [hM]
  have hlenR : (rollingMean10 (F ++ (M ++ [v]))).length = F.length + 11 := by
    simp [rollingMean10, hxs]
  rw [ilocE_neg_eq _ (-2) (F.length + 9) (by norm_num)
    (by rw [hlenR]; push_cast; ring)]
  rw [rollingMean10_getElem _ _ (by rw [hxs]; omega)]
  rw [if_pos (by omega : 9 ≤ F.length + 9)]
  have hdrop : (F ++ (M ++ [v])).drop (F.length + 9 - 9) = M ++ [v] := by
    have : F.length + 9 - 9 = F.length := by omega
    rw [this, List.drop_left]
  rw [hdrop]
  have htake : (M ++ [v]).take 10 = M := by
    rw [← hM, List.take_left]
  rw [htake]

/-- Claim C2: with the analysis-date bar last in the fetched series and the
ten bars `mid10` immediately before it, the stored 10-day average volume is
the arithmetic mean of the volumes of those ten bars — the analysis day's
own volume is excluded. -/
theorem c2_avg_volume_10d (front mid10 : PriceSeries) (d : ℤ) (b : Bar)
    (hm : mid10.length = 10) :
    avg_volume_10d (front ++ mid10 ++ [(d, b)]) =
      .ok (some ((mid10.map (fun p => p.2.volume)).sum / 10)) := by
  unfold avg_volume_10d
  have hxs : (front ++ mid10 ++ [(d, b)]).map (fun p => p.2.volume) =
      front.map (fun p => p.2.volume) ++
        (mid10.map (fun p => p.2.volume) ++ [b.volume]) := by
    simp
  rw [hxs]
  exact rollingMean10_iloc_neg2 _ _ _ (by simp [hm])

/-- Witness for C2: ten bars of volume 200000 followed by the analysis-day
bar give a trailing average of 200000. -/
theorem c2_avg_volume_10d_witness :
    avg_volume_10d ([] ++ tenBars ++ [((11 : ℤ), barX)]) = .ok (some 200000) :=
  (c2_avg_volume_10d [] tenBars 11 barX (by decide)).trans
    (by norm_num [tenBars, barPrev, List.range_succ])

/-- In a date-sorted series, the last element of the keep-dates-before-`d`
selection is the maximal bar strictly before `d`. -/
theorem filter_lt_getLast_max (s : PriceSeries) (d : ℤ) (q : ℤ × Bar)
    (hs : List.Pairwise (fun p r => p.1 < r.1) s) (hq : q ∈ s)
    (hqd : q.1 < d) (hmax : ∀ r ∈ s, r.1 < d → r.1 ≤ q.1) :
    (s.filter (fun r => decide (r.1 < d))).getLast? = some q := by
  induction s with
  | nil => exact absurd hq (List.not_mem_nil q)
  | cons p t ih =>
    rw [List.pairwise_cons] at hs
    obtain ⟨hpt, ht⟩ := hs
    rcases List.mem_cons.mp hq with rfl | hqt
    · have hft : t.filter (fun r => decide (r.1 < d)) = [] := by
        rw [List.filter_eq_nil_iff]
        intro r hr
        simp only [decide_eq_true_eq]
        intro hrd
        exact absurd (hmax r (List.mem_cons_of_mem q hr) hrd)
          (not_le.mpr (hpt r hr))
      rw [List.filter_cons_of_pos (by simpa using hqd), hft]
      rfl
    · have hmax' : ∀ r ∈ t, r.1 < d → r.1 ≤ q.1 :=
        fun r hr => hmax r (List.mem_cons_of_mem p hr)
      have hlast := ih ht hqt hmax'
      by_cases hp : p.1 < d
      · rw [List.filter_cons_of_pos (by simpa using hp)]
        obtain ⟨x, xs, hxx⟩ : ∃ x xs, t.filter (fun r => decide (r.1 < d)) = x :: xs := by
          cases hft : t.filter (fun r => decide (r.1 < d)) with
          | nil => rw [hft] at hlast; exact absurd hlast (by simp)
          | cons x xs => exact ⟨x, xs, rfl⟩
        rw [hxx] at hlast ⊢
        rw [List.getLast?_cons_cons]
        exact hlast
      · rw [List.filter_cons_of_neg (by simpa using hp)]
        exact hlast

/-- Claim C6: in a date-sorted series containing the analysis-date bar,
`close_above_prev_high` is false when no bar lies strictly before the
analysis date, and otherwise compares today's close strictly against the
high of the last bar strictly before the analysis date. -/
theorem c6_close_above_prev_high (s : PriceSeries) (d : ℤ) (today : Bar)
    (hs : List.Pairwise (fun p q => p.1 < q.1) s) (hmem : (d, today) ∈ s) :
    ((∀ q ∈ s, ¬ q.1 < d) →
      prevDayE s d = .ok none ∧ close_above_prev_high today none = false) ∧
    (∀ q ∈ s, q.1 < d → (∀ r ∈ s, r.1 < d → r.1 ≤ q.1) →
      prevDayE s d = .ok (some q.2) ∧
      (close_above_prev_high today (some q.2) = true ↔
        q.2.high < today.close)) := by
  constructor
  · intro hnone
    cases s with
    | nil => exact absurd hmem (List.not_mem_nil _)
    | cons p t =>
      refine ⟨?_, rfl⟩
      simp only [prevDayE]
      rw [if_neg (hnone p (List.mem_cons_self p t))]
  · intro q hq hqd hmax
    have hlast := filter_lt_getLast_max s d q hs hq hqd hmax
    cases s with
    | nil => exact absurd hq (List.not_mem_nil q)
    | cons p t =>
      have hp : p.1 < d := by
        rcases List.mem_cons.mp hq with rfl | hqt
        · exact hqd
        · exact lt_trans ((List.pairwise_cons.mp hs).1 q hqt) hqd
      constructor
      · simp only [prevDayE]
        rw [if_pos hp, hlast]
      · simp [close_above_prev_high]

/-- Witness for C6: with a prior bar of High 105 and today's Close 108,
the previous-day lookup returns that bar and the flag holds. -/
theorem c6_close_above_prev_high_witness :
    prevDayE [((1 : ℤ), barPrev), ((2 : ℤ), barX)] 2 = .ok (some barPrev) ∧
    (close_above_prev_high barX (some barPrev) = true ↔
      barPrev.high < barX.close) :=
  (c6_close_above_prev_high [((1 : ℤ), barPrev), ((2 : ℤ), barX)] 2 barX
      (by decide) (by decide)).2 ((1 : ℤ), barPrev) (by decide) (by decide)
      (by decide)

/-- Claim C3 (refuted by evaluation): even on a series with ample history
(40 bars ending at the analysis date), the analyzer does not return a
record carrying the MACD line and signal — the line-122 lookup of the
nonexistent `MACDs_9` column raises a `KeyError`, whatever values the
indicator library computes, so the symbol is excluded instead. -/
theorem c3_macd_signal_lookup (ind : IndicatorOracle) :
    analyzeStock ind (.ok series40) "X" 40 = .failed (.keyError "MACDs_9") ∧
    ∀ r, analyzeStock ind (.ok series40) "X" 40 ≠ .record r := by
  have h0 : analyzeStock ind (.ok series40) "X" 40 =
      .failed (.keyError "MACDs_9") := rfl
  exact ⟨h0, fun r h => by rw [h0] at h; exact Outcome.noConfusion h⟩

/-- Witness for C3 at the trivial indicator oracle. -/
theorem c3_macd_signal_lookup_witness :
    analyzeStock ind0 (.ok series40) "X" 40 = .failed (.keyError "MACDs_9") :=
  (c3_macd_signal_lookup ind0).1

/-- Claim C10: a fetched series holding only the analysis-date bar makes
the `iloc[-2]` of line 91 raise an `IndexError`, so the symbol is excluded
through the exception path (logged, no record) rather than reported with a
zero volume spike and a false close-above-previous-high. -/
theorem c10_single_bar_series (ind : IndicatorOracle) (sym : String)
    (d : ℤ) (b : Bar) :
    analyzeStock ind (.ok [(d, b)]) sym d = .failed .indexError ∧
    runScan ind (fun _ => .ok [(d, b)]) [sym] d =
      ([], [⟨sym, errMsg .indexError⟩]) := by
  have hloc : locDate [(d, b)] d = some b := by
    simp [locDate, List.find?]
  have hprev : prevDayE [(d, b)] d = .ok none := by
    simp [prevDayE]
  have havg : avg_volume_10d [(d, b)] = .error .indexError := by
    simp [avg_volume_10d, ilocE, rollingMean10]
  have hcore : analyzeCore ind [(d, b)] sym d = .error .indexError := by
    unfold analyzeCore
    simp only [hloc, hprev, bindE_ok, havg, bindE_error]
  have hstock : analyzeStock ind (.ok [(d, b)]) sym d = .failed .indexError := by
    unfold analyzeStock analyzeExc
    simp only [Except.bind, hcore]
  refine ⟨hstock, ?_⟩
  simp [runScan, hstock, outcomeRec, outcomeLog]

/-- Witness for C10 at a concrete single-bar series. -/
theorem c10_single_bar_series_witness :
    analyzeStock ind0 (.ok [((5 : ℤ), barX)]) "A" 5 = .failed .indexError ∧
    runScan ind0 (fun _ => .ok [((5 : ℤ), barX)]) ["A"] 5 =
      ([], [⟨"A", errMsg .indexError⟩]) :=
  c10_single_bar_series ind0 "A" 5 barX

/-- Claim C9: if no index bar exists at the exact analysis date, the run
stops with the user-facing warning and produces no per-symbol table;
otherwise the index percent change is `(Close - Open) / Open * 100` of the
index bar at that date. -/
theorem c9_index_gate (ind : IndicatorOracle) (idxSeries : PriceSeries)
    (fetch : String → Except Err PriceSeries) (symbols : List String)
    (d : ℤ) :
    (locDate idxSeries d = none →
      runPipeline ind idxSeries fetch symbols d =
        .stopped ("No index data available for " ++ toString d ++
          ". Please select a valid trading day.") ∧
      tableOf (runPipeline ind idxSeries fetch symbols d) = none) ∧
    (∀ b, locDate idxSeries d = some b →
      idxPctOf (runPipeline ind idxSeries fetch symbols d) =
        some (((b.close - b.open_) / b.open_) * 100)) := by
  constructor
  · intro h
    constructor
    · simp only [runPipeline, h]
    · simp only [runPipeline, h, tableOf]
  · intro b h
    simp only [runPipeline, h]
    split
    · rfl
    · rfl

/-- Witness for C9: an empty index series stops the run; an index bar with
Open 100 and Close 108 gives a percent change of 8. -/
theorem c9_index_gate_witness :
    tableOf (runPipeline ind0 [] (fun _ => .ok []) [] 0) = none ∧
    idxPctOf (runPipeline ind0 [((1 : ℤ), barX)] (fun _ => .ok []) [] 1) =
      some 8 :=
  ⟨((c9_index_gate ind0 [] (fun _ => .ok []) [] 0).1 rfl).2,
   ((c9_index_gate ind0 [((1 : ℤ), barX)] (fun _ => .ok []) [] 1).2 barX
      (by simp [locDate])).trans (by norm_num [barX])⟩

end BTST
